import Mathlib

/-!
Verification of the mongoose-connection-manager repository: a shallow
embedding of the Named Connection Registry (`MongooseConnectionManager`),
the Module Blueprint Discovery and Binder (`moduleLoader`), the orchestrator
(`Myriad`) and the `SchemaModule` constructor, together with theorems about
the behaviours the specification describes.

JavaScript `Map` objects are modelled as insertion-ordered association lists
over `String` keys: `set` replaces in place when the key is present and
appends otherwise, `delete` removes the entry, `get`/`has` look up the first
(and, for maps built from these operations, only) occurrence of a key.
-/

namespace JsMap

/-- `map.get(k)`: first value stored under key `k`, if any. -/
def mapGet {α : Type} : List (String × α) → String → Option α
  | [], _ => none
  | p :: rest, k => if p.1 = k then some p.2 else mapGet rest k

/-- `map.has(k)`. -/
def mapHas {α : Type} (m : List (String × α)) (k : String) : Bool :=
  (mapGet m k).isSome

/-- `map.set(k, v)`: replace in place when present, append otherwise. -/
def mapSet {α : Type} : List (String × α) → String → α → List (String × α)
  | [], k, v => [(k, v)]
  | p :: rest, k, v => if p.1 = k then (k, v) :: rest else p :: mapSet rest k v

/-- `map.delete(k)`. -/
def mapDelete {α : Type} : List (String × α) → String → List (String × α)
  | [], _ => []
  | p :: rest, k => if p.1 = k then mapDelete rest k else p :: mapDelete rest k

/-- Number of entries stored under key `k`. -/
def countKey {α : Type} : List (String × α) → String → Nat
  | [], _ => 0
  | p :: rest, k => (if p.1 = k then 1 else 0) + countKey rest k

@[simp] theorem mapGet_nil {α : Type} (k : String) :
    mapGet ([] : List (String × α)) k = none := rfl

@[simp] theorem mapGet_set_self {α : Type} (m : List (String × α)) (k : String) (v : α) :
    mapGet (mapSet m k v) k = some v := by
  induction m with
  | nil => simp [mapSet, mapGet]
  | cons p rest ih =>
    by_cases h : p.1 = k
    · simp [mapSet, mapGet, h]
    · simp [mapSet, mapGet, h, ih]

theorem mapGet_set_ne {α : Type} (m : List (String × α)) {k k' : String} (v : α)
    (h : k' ≠ k) : mapGet (mapSet m k v) k' = mapGet m k' := by
  have hk : ¬ k = k' := fun hh => h hh.symm
  induction m with
  | nil => simp [mapSet, mapGet, hk]
  | cons p rest ih =>
    by_cases hp : p.1 = k
    · simp [mapSet, mapGet, hp, hk]
    · by_cases hp' : p.1 = k'
      · simp [mapSet, mapGet, hp, hp', h, ih]
      · simp [mapSet, mapGet, hp, hp', ih]

theorem countKey_zero_of_not_has {α : Type} (m : List (String × α)) (k : String)
    (h : mapHas m k = false) : countKey m k = 0 := by
  induction m with
  | nil => rfl
  | cons p rest ih =>
    by_cases hp : p.1 = k
    · simp [mapHas, mapGet, hp] at h
    · simp [mapHas, mapGet, hp] at h
      have hrest : mapHas rest k = false := by simp [mapHas, h]
      simp [countKey, hp, ih hrest]

theorem countKey_set {α : Type} (m : List (String × α)) (k : String) (v : α) :
    countKey (mapSet m k v) k
      = if mapHas m k then countKey m k else countKey m k + 1 := by
  induction m with
  | nil => simp [mapSet, countKey, mapHas, mapGet]
  | cons p rest ih =>
    by_cases hp : p.1 = k
    · simp [mapSet, countKey, mapHas, mapGet, hp]
    · by_cases hr : mapHas rest k
      · simp [mapSet, countKey, mapHas, mapGet, hp, hr] at *
        omega
      · simp [mapSet, countKey, mapHas, mapGet, hp, hr] at *
        omega

theorem countKey_set_ne {α : Type} (m : List (String × α)) {k k' : String} (v : α)
    (h : k ≠ k') : countKey (mapSet m k' v) k = countKey m k := by
  have h1 : ¬ k' = k := fun hh => h hh.symm
  induction m with
  | nil => simp [mapSet, countKey, h1]
  | cons p rest ih =>
    by_cases hp : p.1 = k'
    · simp [mapSet, countKey, hp, h1]
    · simp [mapSet, countKey, hp, ih]

theorem countKey_set_le_one {α : Type} (m : List (String × α)) (k k' : String) (v : α)
    (h : countKey m k ≤ 1) : countKey (mapSet m k' v) k ≤ 1 := by
  by_cases hk : k = k'
  · subst hk
    rw [countKey_set]
    by_cases hh : mapHas m k
    · simpa [hh] using h
    · have h0 := countKey_zero_of_not_has m k (by simpa using hh)
      simp [hh, h0]
  · rw [countKey_set_ne m v hk]
    exact h

theorem mem_of_mapGet_some {α : Type} {m : List (String × α)} {k : String} {v : α}
    (h : mapGet m k = some v) : (k, v) ∈ m := by
  induction m with
  | nil => simp [mapGet] at h
  | cons p rest ih =>
    by_cases hp : p.1 = k
    · simp [mapGet, hp] at h
      have hpv : p = (k, v) := by cases p; simp_all
      simp [hpv]
    · simp [mapGet, hp] at h
      exact List.mem_cons_of_mem _ (ih h)

theorem mem_mapSet {α : Type} {m : List (String × α)} {k : String} {v : α}
    {p : String × α} (h : p ∈ mapSet m k v) : p ∈ m ∨ p = (k, v) := by
  induction m with
  | nil => simp [mapSet] at h; simp [h]
  | cons q rest ih =>
    by_cases hq : q.1 = k
    · simp [mapSet, hq] at h
      rcases h with h | h
      · right; simp [h]
      · left; simp [h]
    · simp [mapSet, hq] at h
      rcases h with h | h
      · left; simp [h]
      · rcases ih h with h' | h'
        · left; simp [h']
        · right; exact h'

@[simp] theorem mapGet_delete_self {α : Type} (m : List (String × α)) (k : String) :
    mapGet (mapDelete m k) k = none := by
  induction m with
  | nil => rfl
  | cons p rest ih =>
    by_cases hp : p.1 = k
    · simp [mapDelete, hp, ih]
    · simp [mapDelete, mapGet, hp, ih]

theorem mapGet_eq_none_of_not_has {α : Type} {m : List (String × α)} {k : String}
    (h : mapHas m k = false) : mapGet m k = none := by
  simpa [mapHas, Option.isSome_iff_exists] using h

end JsMap

open JsMap

/-! ## Connection registry (`MongooseConnectionManager`)

Embeds the TypeScript manager of `part_002` (the variant wired into the
orchestrator: it is the one with `getOrCreateConnection`), and, where they
differ, the legacy `mjs` manager (`src/mjs/connector.handler.mjs`). Console
output is modelled as a list of structured log entries. -/

/-- Structured console lines emitted by the system (warn/error/info severity is
encoded in the constructor). -/
inductive LogEntry where
  | warnAlreadyExists (name : String)
  | errorConnectFailed (name msg : String)
  | warnCloseNotFound (name : String)
  | errorCloseFailed (name msg : String)
  | infoClosingAll
  | infoPoolCleared
  | errorNotFound (name : String)
  | infoClosedOk (name : String)
  | warnSkipNoUri (modelName : String)
  | warnModuleNotFound (modelName moduleRef : String)
  | infoReady (modelName : String)
deriving DecidableEq, Repr

/-- A mongoose `Connection` handle. `id` models JavaScript object identity,
`uri` the target, and `closeFails` whether `conn.close()` rejects. -/
structure Connection where
  id : Nat
  uri : String
  closeFails : Bool
deriving DecidableEq, Repr

/-- Environment for `mongoose.createConnection(url, options).asPromise()`:
given the connection name and url, either the established handle or the
rejection message. (`options` is an opaque pass-through and is omitted.) -/
def ConnectEnv := String → String → Except String Connection

/-- State of a `MongooseConnectionManager` instance: the `Connections` map and
the console log. -/
structure MongooseConnectionManager where
  Connections : List (String × Connection)
  log : List LogEntry
deriving DecidableEq, Repr

namespace MongooseConnectionManager

/-- `addConnection(name, url, options)` (part_002): warn-and-return when the
name is already present; otherwise await establishment — on success store the
handle, on failure log an error and store nothing. Never throws. -/
def addConnection (st : MongooseConnectionManager) (name url : String)
    (connect : ConnectEnv) : MongooseConnectionManager :=
  if mapHas st.Connections name then
    { st with log := st.log ++ [.warnAlreadyExists name] }
  else
    match connect name url with
    | .ok conn => { st with Connections := mapSet st.Connections name conn }
    | .error msg => { st with log := st.log ++ [.errorConnectFailed name msg] }

/-- `getConnection(name)` (part_002): lookup without creating; no log. -/
def getConnection (st : MongooseConnectionManager) (name : String) :
    Option Connection :=
  if mapHas st.Connections name then mapGet st.Connections name else none

/-- `getActiveConnectionCount()`: size of the map. -/
def getActiveConnectionCount (st : MongooseConnectionManager) : Nat :=
  st.Connections.length

/-- `getOrCreateConnection(name, url, options)` (part_002): return the stored
handle when present; otherwise `addConnection` then re-read the map. -/
def getOrCreateConnection (st : MongooseConnectionManager) (name url : String)
    (connect : ConnectEnv) : Option Connection × MongooseConnectionManager :=
  if mapHas st.Connections name then
    (mapGet st.Connections name, st)
  else
    let st1 := addConnection st name url connect
    (mapGet st1.Connections name, st1)

/-- `closeConnection(name)` (part_002): warn when absent; when present await
`connection.close()`. `eventFires` models whether the mongoose
`disconnected` event is delivered (its observer deletes the entry) before the
close resolves; the function body itself performs no map mutation. -/
def closeConnection (st : MongooseConnectionManager) (name : String)
    (eventFires : Bool) : MongooseConnectionManager :=
  match getConnection st name with
  | some _ =>
      if eventFires then
        { st with Connections := mapDelete st.Connections name }
      else st
  | none => { st with log := st.log ++ [.warnCloseNotFound name] }

/-- Outcome of `conn.close()` for a handle. -/
def closeOutcome (c : Connection) : Except String Unit :=
  if c.closeFails then .error "close failed" else .ok ()

/-- The settled outcomes `Promise.allSettled` collects in part_002's
`closeAllConnections`: one outcome per map entry, failures included. -/
def closeAllOutcomes (st : MongooseConnectionManager) :
    List (Except String Unit) :=
  st.Connections.map (fun p => closeOutcome p.2)

/-- The error lines produced by the per-promise `.catch` handlers of
part_002's `closeAllConnections`. -/
def closeAllErrorLogs (st : MongooseConnectionManager) : List LogEntry :=
  st.Connections.filterMap (fun p =>
    match closeOutcome p.2 with
    | .ok _ => none
    | .error m => some (.errorCloseFailed p.1 m))

/-- `closeAllConnections()` (part_002): issue a close per entry, await all
outcomes via `Promise.allSettled` (each failure confined to its own `.catch`
log), then `clear()` the map unconditionally. -/
def closeAllConnections (st : MongooseConnectionManager) :
    MongooseConnectionManager :=
  { Connections := [],
    log := st.log ++ [.infoClosingAll] ++ closeAllErrorLogs st
             ++ [.infoPoolCleared] }

/-- `closeConnection(name)` from the legacy mjs manager: its `getConnection`
logs an error when the name is absent; when present it awaits close and then
deletes the entry from the map directly, in addition to whatever the
`disconnected` observer does. -/
def mjsCloseConnection (st : MongooseConnectionManager) (name : String)
    (eventFires : Bool) : MongooseConnectionManager :=
  match mapGet st.Connections name with
  | some _ =>
      let st1 :=
        if eventFires then
          { st with Connections := mapDelete st.Connections name }
        else st
      { st1 with Connections := mapDelete st1.Connections name,
                 log := st1.log ++ [.infoClosedOk name] }
  | none => { st with log := st.log ++ [.errorNotFound name] }

/-- Sequential close loop of the mjs `closeAllConnections`: each close is
awaited in turn with no catch, so the first rejection propagates and the
remaining entries are never closed. -/
def mjsCloseLoop : List (String × Connection) → List LogEntry →
    Except String (List LogEntry)
  | [], logs => .ok logs
  | p :: rest, logs =>
    match closeOutcome p.2 with
    | .ok _ => mjsCloseLoop rest (logs ++ [.infoClosedOk p.1])
    | .error m => .error m

/-- mjs `closeAllConnections()`: sequential awaits, no catch;
`Connections.clear()` is reached only when every close resolved, otherwise
the call rejects with the map untouched. -/
def mjsCloseAllConnections (st : MongooseConnectionManager) :
    Except String MongooseConnectionManager :=
  match mjsCloseLoop st.Connections st.log with
  | .ok logs => .ok { Connections := [], log := logs }
  | .error m => .error m

end MongooseConnectionManager

/-! ## Module blueprint discovery and binder (`moduleLoader`) -/

/-- A module blueprint: the default-exported class of a scanned module file;
`className` is its declared identifier (`ModuleClass.name`). -/
structure Blueprint where
  className : String
deriving DecidableEq, Repr

/-- `String.prototype.toLowerCase()` as used on blueprint names
(`ModuleClass.name.toLowerCase()`); written over the character list so that
it evaluates. -/
def jsToLowerCase (s : String) : String :=
  String.mk (s.data.map Char.toLower)

/-- Discovery loop of `moduleLoader` starting from a given catalog: each file
is dynamically imported — the `await import(...)` is not guarded, so an import
failure propagates and aborts the loop — and on success the blueprint is
stored under its lower-cased declared name. -/
def discoverFrom (cat : List (String × Blueprint)) :
    List (Except String Blueprint) → Except String (List (String × Blueprint))
  | [] => .ok cat
  | f :: rest =>
    match f with
    | .ok b => discoverFrom (mapSet cat (jsToLowerCase b.className) b) rest
    | .error m => .error m

/-- The discovery phase of `moduleLoader` over the scanned files. -/
def discover (files : List (Except String Blueprint)) :
    Except String (List (String × Blueprint)) :=
  discoverFrom [] files

/-- The catalog the discovery loop builds when every file loads. -/
def catalogFrom (cat : List (String × Blueprint)) :
    List Blueprint → List (String × Blueprint)
  | [] => cat
  | b :: rest => catalogFrom (mapSet cat (jsToLowerCase b.className) b) rest

/-- Catalog built from an all-successful scan. -/
def catalogOf (bs : List Blueprint) : List (String × Blueprint) :=
  catalogFrom [] bs

/-- The last blueprint in scan order whose lower-cased declared name is `k`. -/
def lastDeclared : List Blueprint → String → Option Blueprint
  | [], _ => none
  | b :: rest, k =>
    match lastDeclared rest k with
    | some b' => some b'
    | none => if jsToLowerCase b.className = k then some b else none

/-- One configuration record (`RecordConfig` of Myriad.config.ts).
`modelSchema` is an opaque schema token. In library mode the blueprint itself
is supplied as `record.modelModule` (here `modelModuleClass`); otherwise
`modelModule` is the blueprint name to resolve in the discovery catalog. -/
structure RecordConfig where
  name : String
  uri : Option String
  modelName : String
  modelSchema : Nat
  modelModule : String
  modelModuleClass : Option Blueprint
deriving DecidableEq, Repr

/-- A live module instance `new ModuleClass(connection, modelName,
modelSchema)`; `instanceId` models the JavaScript object identity of the
freshly constructed object. -/
structure ModuleInstance where
  instanceId : Nat
  blueprint : String
  connection : Option Connection
  modelName : String
  modelSchema : Nat
deriving DecidableEq, Repr

/-- State of a `Myriad` orchestrator: the module-instance map, the dynamic
properties injected by `app[record.modelName] = instance`, the owned
connection manager, the loader's console log, and the allocator for fresh
object identities. -/
structure Myriad where
  moduleInstances : List (String × ModuleInstance)
  props : List (String × ModuleInstance)
  connectionManager : MongooseConnectionManager
  log : List LogEntry
  nextInstanceId : Nat
deriving DecidableEq, Repr

/-- `registerModule(name, module)`. -/
def Myriad.registerModule (app : Myriad) (name : String) (m : ModuleInstance) :
    Myriad :=
  { app with moduleInstances := mapSet app.moduleInstances name m }

/-- `getModule(name)`. -/
def Myriad.getModule (app : Myriad) (name : String) : Option ModuleInstance :=
  mapGet app.moduleInstances name

/-- `getConnectionManager()`. -/
def Myriad.getConnectionManager (app : Myriad) : MongooseConnectionManager :=
  app.connectionManager

/-- JavaScript truthiness of a possibly-undefined string: `undefined` and the
empty string are falsy. -/
def jsTruthy : Option String → Bool
  | none => false
  | some s => !(s == "")

/-- Body of the construction loop of `moduleLoader` for one record: resolve
the effective connection name (`globalUri ? "globalDB" : record.name`) and
URI (`globalUri ?? record.uri`); when the URI is falsy, warn and skip; obtain
the connection via `getOrCreateConnection`; resolve the blueprint (supplied
directly in library mode, else looked up by lower-cased name in the catalog),
warning and skipping when unresolved; instantiate; then register the instance
as `app[record.modelName]` and via `registerModule(record.name, instance)`. -/
def bindRecord (catalog : List (String × Blueprint)) (globalUri : Option String)
    (isLibraryMode : Bool) (connect : ConnectEnv) (app : Myriad)
    (record : RecordConfig) : Myriad :=
  let name := if jsTruthy globalUri then "globalDB" else record.name
  match globalUri <|> record.uri with
  | none => { app with log := app.log ++ [.warnSkipNoUri record.modelName] }
  | some u =>
    if u = "" then
      { app with log := app.log ++ [.warnSkipNoUri record.modelName] }
    else
      let got := app.connectionManager.getOrCreateConnection name u connect
      let app1 := { app with connectionManager := got.2 }
      let moduleClass :=
        if isLibraryMode then record.modelModuleClass
        else mapGet catalog (jsToLowerCase record.modelModule)
      match moduleClass with
      | none =>
          { app1 with
            log := app1.log
              ++ [.warnModuleNotFound record.modelName record.modelModule] }
      | some bp =>
          let inst : ModuleInstance :=
            { instanceId := app1.nextInstanceId, blueprint := bp.className,
              connection := got.1, modelName := record.modelName,
              modelSchema := record.modelSchema }
          { app1 with
            props := mapSet app1.props record.modelName inst,
            moduleInstances := mapSet app1.moduleInstances record.name inst,
            log := app1.log ++ [.infoReady record.modelName],
            nextInstanceId := app1.nextInstanceId + 1 }

/-- The construction loop of `moduleLoader`: records processed in descriptor
order, each record's suspension points awaited before the next. -/
def bindRecords (catalog : List (String × Blueprint)) (globalUri : Option String)
    (isLibraryMode : Bool) (connect : ConnectEnv) :
    Myriad → List RecordConfig → Myriad
  | app, [] => app
  | app, r :: rs =>
      bindRecords catalog globalUri isLibraryMode connect
        (bindRecord catalog globalUri isLibraryMode connect app r) rs

/-- `moduleLoader(app, records, globalUri, isLibraryMode)`: in library mode
discovery is skipped entirely (empty catalog, blueprints travel with the
records); otherwise the scanned files are imported one by one — an import
failure aborts the whole loader — and the construction loop then binds every
record in order. -/
def moduleLoader (app : Myriad) (files : List (Except String Blueprint))
    (records : List RecordConfig) (globalUri : Option String)
    (isLibraryMode : Bool) (connect : ConnectEnv) : Except String Myriad :=
  if isLibraryMode then
    .ok (bindRecords [] globalUri true connect app records)
  else
    match discover files with
    | .ok catalog => .ok (bindRecords catalog globalUri false connect app records)
    | .error m => .error m

/-! ## Orchestrator (`Myriad` lifecycle) -/

/-- The loaded configuration structure (`MyriadConfig`). -/
structure MyriadConfig where
  useGlobalUri : Bool
  globalUri : Option String
  libMode : Bool
  records : List RecordConfig
deriving DecidableEq, Repr

/-- `loadConfig()`: resolve `myriad.config.js`; when the file does not exist,
throw `MyriadJS config not found at: ...`; otherwise return the imported
configuration. `src` models the configuration source on disk. -/
def Myriad.loadConfig (src : Option MyriadConfig) : Except String MyriadConfig :=
  match src with
  | none => .error "MyriadJS config not found"
  | some c => .ok c

/-- `new Myriad()`: empty module map, empty props, a fresh connection
manager. -/
def Myriad.create : Myriad :=
  { moduleInstances := [], props := [],
    connectionManager := { Connections := [], log := [] },
    log := [], nextInstanceId := 0 }

/-- `Myriad.init()`: construct the app, load the configuration — a missing
source throws out of `init` — then run the module loader with
`useGlobalUri ? globalUri : undefined`. -/
def Myriad.init (src : Option MyriadConfig)
    (files : List (Except String Blueprint)) (connect : ConnectEnv) :
    Except String Myriad :=
  match Myriad.loadConfig src with
  | .error m => .error m
  | .ok config =>
      moduleLoader Myriad.create files config.records
        (if config.useGlobalUri then config.globalUri else none)
        config.libMode connect

/-- `reloadModule()`: clear the module-instance map, reload the
configuration, and re-run the module loader on the same app — the connection
manager is carried over untouched, so existing connections are reused by
name. -/
def Myriad.reloadModule (app : Myriad) (src : Option MyriadConfig)
    (files : List (Except String Blueprint)) (connect : ConnectEnv) :
    Except String Myriad :=
  match Myriad.loadConfig src with
  | .error m => .error m
  | .ok config =>
      moduleLoader { app with moduleInstances := [] } files config.records
        (if config.useGlobalUri then config.globalUri else none)
        config.libMode connect

/-! ## `SchemaModule` (part_001) -/

/-- The models cache of a mongoose connection (`connection.models`), with a
fresh-identity allocator for newly compiled models. -/
structure ConnectionModels where
  models : List (String × Nat)
  nextModelId : Nat
deriving DecidableEq, Repr

/-- mongoose `connection.model(name, schema)`: compiles a fresh model and
caches it under `name`; calling it again for a name that already has a model
raises `OverwriteModelError`. -/
def connectionModel (c : ConnectionModels) (name : String) (_schemaDef : Nat) :
    Except String (ConnectionModels × Nat) :=
  if mapHas c.models name then .error "OverwriteModelError"
  else
    .ok ({ models := mapSet c.models name c.nextModelId,
           nextModelId := c.nextModelId + 1 }, c.nextModelId)

/-- A `SchemaModule` instance (part_001): its `model` field. -/
structure SchemaModule where
  model : Nat
deriving DecidableEq, Repr

/-- The `SchemaModule` constructor (part_001): `this.model =
connection.models[modelName] ? connection.models[modelName] :
connection.model(modelName, modelSchema)` — reuse the cached model when the
connection already has one under that name, otherwise compile (and cache) a
new one. Returns the updated connection cache alongside the instance. -/
def SchemaModule.construct (c : ConnectionModels) (modelName : String)
    (modelSchema : Nat) : Except String (ConnectionModels × SchemaModule) :=
  match mapGet c.models modelName with
  | some m => .ok (c, { model := m })
  | none =>
      match connectionModel c modelName modelSchema with
      | .ok (c', m) => .ok (c', { model := m })
      | .error e => .error e

/-! ## Well-formedness predicates and concrete fixtures -/

/-- Object identities of all registered module instances were allocated
before the current value of the fresh-identity counter. Every reachable
`Myriad` state satisfies this: instances are only ever created with the
counter's current value, which is then incremented. -/
def Myriad.idsBounded (app : Myriad) : Prop :=
  ∀ p ∈ app.moduleInstances, p.2.instanceId < app.nextInstanceId

/-- All registered module instances have identity at least `lo`, and the
fresh-identity counter is at least `lo`: the invariant maintained by a
binding pass that started with counter value `lo` and an empty module map. -/
def Myriad.instancesAtLeast (lo : Nat) (app : Myriad) : Prop :=
  lo ≤ app.nextInstanceId ∧ ∀ p ∈ app.moduleInstances, lo ≤ p.2.instanceId

/-- Fixture: a module instance registered before a reload. -/
def oldInstFixture : ModuleInstance :=
  { instanceId := 0, blueprint := "UserModule",
    connection := some (Connection.mk 7 "u" false),
    modelName := "User", modelSchema := 0 }

/-- Fixture: an orchestrator in the Ready state with one bound module over
connection "main". -/
def appFixture : Myriad :=
  { moduleInstances := [("svc", oldInstFixture)],
    props := [("User", oldInstFixture)],
    connectionManager :=
      { Connections := [("main", Connection.mk 7 "u" false)], log := [] },
    log := [], nextInstanceId := 1 }

/-- Fixture: the configuration reloaded from disk (library mode, blueprint
supplied with the record). -/
def configFixture : MyriadConfig :=
  { useGlobalUri := false, globalUri := none, libMode := true,
    records := [{ name := "main", uri := some "u", modelName := "User",
                  modelSchema := 0, modelModule := "UserModule",
                  modelModuleClass := some { className := "UserModule" } }] }

/-- Fixture: an establishment environment that is never consulted because the
"main" connection already exists and is reused. -/
def connectFixture : ConnectEnv := fun _ _ => Except.error "unreachable"

/-- Fixture: the state `reloadModule` produces from `appFixture` with
`configFixture`: the connection map is unchanged, the old instance is gone,
and a freshly constructed instance (identity 1) is registered. -/
def appReloadedFixture : Myriad :=
  { moduleInstances :=
      [("main", ModuleInstance.mk 1 "UserModule"
          (some (Connection.mk 7 "u" false)) "User" 0)],
    props :=
      [("User", ModuleInstance.mk 1 "UserModule"
          (some (Connection.mk 7 "u" false)) "User" 0)],
    connectionManager :=
      { Connections := [("main", Connection.mk 7 "u" false)], log := [] },
    log := [LogEntry.infoReady "User"],
    nextInstanceId := 2 }

/-! ## Helper lemmas -/

theorem addConnection_preserves_entry (st : MongooseConnectionManager)
    (k u : String) (connect : ConnectEnv) {n : String} {c : Connection}
    (h : mapGet st.Connections n = some c) :
    mapGet (st.addConnection k u connect).Connections n = some c := by
  cases hk : mapHas st.Connections k with
  | true => simp [MongooseConnectionManager.addConnection, hk, h]
  | false =>
    cases hc : connect k u with
    | ok conn =>
        have hne : n ≠ k := by
          intro he
          subst he
          rw [mapGet_eq_none_of_not_has hk] at h
          exact Option.noConfusion h
        simp [MongooseConnectionManager.addConnection, hk, hc,
              mapGet_set_ne _ _ hne, h]
    | error m => simp [MongooseConnectionManager.addConnection, hk, hc, h]

theorem getOrCreateConnection_preserves_entry (st : MongooseConnectionManager)
    (k u : String) (connect : ConnectEnv) {n : String} {c : Connection}
    (h : mapGet st.Connections n = some c) :
    mapGet ((st.getOrCreateConnection k u connect).2).Connections n = some c := by
  cases hk : mapHas st.Connections k with
  | true => simp [MongooseConnectionManager.getOrCreateConnection, hk, h]
  | false =>
      simp [MongooseConnectionManager.getOrCreateConnection, hk]
      exact addConnection_preserves_entry st k u connect h

theorem bindRecord_preserves_entry (catalog : List (String × Blueprint))
    (g : Option String) (lib : Bool) (connect : ConnectEnv) (app : Myriad)
    (r : RecordConfig) {n : String} {c : Connection}
    (h : mapGet app.connectionManager.Connections n = some c) :
    mapGet (bindRecord catalog g lib connect app r).connectionManager.Connections n
      = some c := by
  unfold bindRecord
  cases hu : g <|> r.uri with
  | none => simpa using h
  | some u =>
      by_cases hu0 : u = ""
      · simpa [hu0] using h
      · simp only [hu0, if_false]
        cases hmc : (if lib then r.modelModuleClass
            else mapGet catalog (jsToLowerCase r.modelModule)) with
        | none =>
            simp only [hmc]
            exact getOrCreateConnection_preserves_entry _ _ _ _ h
        | some bp =>
            simp only [hmc]
            exact getOrCreateConnection_preserves_entry _ _ _ _ h

theorem bindRecords_preserves_entry (catalog : List (String × Blueprint))
    (g : Option String) (lib : Bool) (connect : ConnectEnv)
    (rs : List RecordConfig) (app : Myriad) {n : String} {c : Connection}
    (h : mapGet app.connectionManager.Connections n = some c) :
    mapGet (bindRecords catalog g lib connect app rs).connectionManager.Connections n
      = some c := by
  induction rs generalizing app with
  | nil => simpa [bindRecords] using h
  | cons r rest ih =>
      simp only [bindRecords]
      exact ih _ (bindRecord_preserves_entry catalog g lib connect app r h)

theorem bindRecord_instancesAtLeast (catalog : List (String × Blueprint))
    (g : Option String) (lib : Bool) (connect : ConnectEnv) (app : Myriad)
    (r : RecordConfig) (lo : Nat) (h : Myriad.instancesAtLeast lo app) :
    Myriad.instancesAtLeast lo (bindRecord catalog g lib connect app r) := by
  obtain ⟨hlo, hall⟩ := h
  unfold bindRecord
  cases hu : g <|> r.uri with
  | none => exact ⟨hlo, hall⟩
  | some u =>
      by_cases hu0 : u = ""
      · simp only [hu0, if_true]
        exact ⟨hlo, hall⟩
      · simp only [hu0, if_false]
        cases hmc : (if lib then r.modelModuleClass
            else mapGet catalog (jsToLowerCase r.modelModule)) with
        | none => exact ⟨hlo, hall⟩
        | some bp =>
            refine ⟨Nat.le_succ_of_le hlo, ?_⟩
            intro p hp
            rcases mem_mapSet (m := app.moduleInstances) hp with hmem | hnew
            · exact hall p hmem
            · subst hnew
              exact hlo

theorem bindRecords_instancesAtLeast (catalog : List (String × Blueprint))
    (g : Option String) (lib : Bool) (connect : ConnectEnv)
    (rs : List RecordConfig) (app : Myriad) (lo : Nat)
    (h : Myriad.instancesAtLeast lo app) :
    Myriad.instancesAtLeast lo (bindRecords catalog g lib connect app rs) := by
  induction rs generalizing app with
  | nil => simpa [bindRecords] using h
  | cons r rest ih =>
      simp only [bindRecords]
      exact ih _ (bindRecord_instancesAtLeast catalog g lib connect app r lo h)

theorem discoverFrom_map_ok (bs : List Blueprint)
    (cat : List (String × Blueprint)) :
    discoverFrom cat (bs.map Except.ok) = .ok (catalogFrom cat bs) := by
  induction bs generalizing cat with
  | nil => rfl
  | cons b rest ih => simpa [discoverFrom, catalogFrom] using ih _

theorem countKey_catalogFrom_le_one (bs : List Blueprint)
    (cat : List (String × Blueprint)) (k : String)
    (h : countKey cat k ≤ 1) : countKey (catalogFrom cat bs) k ≤ 1 := by
  induction bs generalizing cat with
  | nil => simpa [catalogFrom] using h
  | cons b rest ih =>
      simp only [catalogFrom]
      exact ih _ (countKey_set_le_one _ _ _ _ h)

theorem mapGet_catalogFrom (bs : List Blueprint)
    (cat : List (String × Blueprint)) (k : String) :
    mapGet (catalogFrom cat bs) k
      = match lastDeclared bs k with
        | some b => some b
        | none => mapGet cat k := by
  induction bs generalizing cat with
  | nil => simp [catalogFrom, lastDeclared]
  | cons b rest ih =>
      simp only [catalogFrom, lastDeclared]
      rw [ih]
      cases hl : lastDeclared rest k with
      | some b' => simp
      | none =>
          by_cases hb : jsToLowerCase b.className = k
          · simp [hb, mapGet_set_self]
          · simp [hb, mapGet_set_ne _ _ (fun hh => hb hh.symm)]

/-! ## Claim theorems -/

/-- C1 (amended): in the TypeScript manager, `closeAllConnections()` always
leaves the connection map empty — for every starting state, including ones
where some entries' close operations fail: one settled outcome is collected
per entry (no short-circuit on the first failure; every failing entry's error
is individually logged by its own catch handler) and the map is cleared
unconditionally afterwards. -/
theorem closeAllConnections_empties_map (st : MongooseConnectionManager) :
    (st.closeAllConnections).Connections = []
    ∧ (st.closeAllConnections).getActiveConnectionCount = 0
    ∧ (st.closeAllOutcomes).length = st.Connections.length
    ∧ (∀ p ∈ st.Connections, p.2.closeFails = true →
        LogEntry.errorCloseFailed p.1 "close failed" ∈ (st.closeAllConnections).log) := by
  refine ⟨rfl, rfl, by simp [MongooseConnectionManager.closeAllOutcomes], ?_⟩
  intro p hp hfail
  have hmem : LogEntry.errorCloseFailed p.1 "close failed"
      ∈ st.closeAllErrorLogs := by
    apply List.mem_filterMap.mpr
    exact ⟨p, hp, by simp [MongooseConnectionManager.closeOutcome, hfail]⟩
  simp [MongooseConnectionManager.closeAllConnections, hmem]

/-- C1 witness: the spec's own test — one failing close injected among three
connections — ends with an empty map and the failure individually logged. -/
theorem closeAllConnections_empties_map_witness :
    ((MongooseConnectionManager.mk
        [("a", Connection.mk 1 "ua" false), ("b", Connection.mk 2 "ub" true),
         ("c", Connection.mk 3 "uc" false)] []).closeAllConnections).Connections = []
    ∧ LogEntry.errorCloseFailed "b" "close failed" ∈
        ((MongooseConnectionManager.mk
            [("a", Connection.mk 1 "ua" false), ("b", Connection.mk 2 "ub" true),
             ("c", Connection.mk 3 "uc" false)] []).closeAllConnections).log :=
  ⟨(closeAllConnections_empties_map _).1,
   (closeAllConnections_empties_map _).2.2.2 ("b", Connection.mk 2 "ub" true)
     (by decide) rfl⟩

/-- C1 counterexample: the legacy mjs `closeAllConnections` awaits each close
sequentially with no catch — with one failing close among three, the call
rejects on that failure (the third connection is never closed, `clear()` is
never reached), so the claim's "map is empty afterward regardless of
individual close outcomes" fails on that variant. -/
theorem mjsCloseAllConnections_short_circuits :
    MongooseConnectionManager.mjsCloseAllConnections
        (MongooseConnectionManager.mk
          [("a", Connection.mk 1 "ua" false), ("b", Connection.mk 2 "ub" true),
           ("c", Connection.mk 3 "uc" false)] [])
      = .error "close failed"
    ∧ (MongooseConnectionManager.mk
          [("a", Connection.mk 1 "ua" false), ("b", Connection.mk 2 "ub" true),
           ("c", Connection.mk 3 "uc" false)] []).Connections.length = 3 := by
  constructor
  · rfl
  · rfl

/-- C3: the discovery loop of `moduleLoader` has no guard around the dynamic
import, so one file that fails to load aborts the entire scan and the whole
binding pass: the loader rejects with that import error, the remaining file
is never catalogued and no record is bound — it does not log-and-continue to
a partial catalog. -/
theorem discovery_failure_aborts_scan :
    discover [Except.error "import failed", Except.ok (Blueprint.mk "UserModule")]
      = .error "import failed"
    ∧ moduleLoader Myriad.create
        [Except.error "import failed", Except.ok (Blueprint.mk "UserModule")]
        [{ name := "main", uri := some "u", modelName := "User", modelSchema := 0,
           modelModule := "UserModule", modelModuleClass := none }]
        none false (fun _ _ => Except.error "unused")
      = .error "import failed" := by
  constructor
  · rfl
  · rfl

/-- C5: `addConnection` on a name already present is an idempotent no-op —
it only appends the duplicate warning and leaves the map untouched; hence
calling it twice in sequence from a state without the name (first
establishment succeeding) stores exactly one handle for it, the second call
changing nothing but the warning log. -/
theorem addConnection_duplicate_noop (st : MongooseConnectionManager)
    (n u : String) (connect : ConnectEnv) :
    (mapHas st.Connections n = true →
        st.addConnection n u connect
          = { st with log := st.log ++ [.warnAlreadyExists n] })
    ∧ (mapHas st.Connections n = false → ∀ c, connect n u = .ok c →
        countKey ((st.addConnection n u connect).addConnection n u connect).Connections n = 1
        ∧ ((st.addConnection n u connect).addConnection n u connect).Connections
            = (st.addConnection n u connect).Connections
        ∧ ((st.addConnection n u connect).addConnection n u connect).log
            = (st.addConnection n u connect).log ++ [.warnAlreadyExists n]) := by
  constructor
  · intro hh
    simp [MongooseConnectionManager.addConnection, hh]
  · intro hh c hc
    have h1 : st.addConnection n u connect
        = { st with Connections := mapSet st.Connections n c } := by
      simp [MongooseConnectionManager.addConnection, hh, hc]
    have hhas1 : mapHas (mapSet st.Connections n c) n = true := by
      simp [mapHas, mapGet_set_self]
    have h2 : (st.addConnection n u connect).addConnection n u connect
        = { st with Connections := mapSet st.Connections n c,
                    log := st.log ++ [.warnAlreadyExists n] } := by
      rw [h1]
      simp [MongooseConnectionManager.addConnection, hhas1]
    refine ⟨?_, ?_, ?_⟩
    · rw [h2]
      have h0 : countKey st.Connections n = 0 := countKey_zero_of_not_has _ _ hh
      simp [countKey_set, hh, h0]
    · rw [h2, h1]
    · rw [h2, h1]

/-- C5 witness: two `addConnection("main", ...)` calls in a row end with
exactly one stored handle for "main". -/
theorem addConnection_duplicate_noop_witness :
    countKey (((MongooseConnectionManager.mk [] []).addConnection "main" "u"
          (fun _ _ => .ok (Connection.mk 4 "u" false))).addConnection "main" "u"
          (fun _ _ => .ok (Connection.mk 4 "u" false))).Connections "main" = 1 :=
  ((addConnection_duplicate_noop (MongooseConnectionManager.mk [] []) "main" "u"
      (fun _ _ => .ok (Connection.mk 4 "u" false))).2 rfl
    (Connection.mk 4 "u" false) rfl).1

/-- C6: `getOrCreateConnection` returns the stored handle unchanged-state
when the name is present (no re-establishment: the state, including the
manager's map and log, is returned as-is); when absent and establishment
succeeds, it performs `addConnection` and re-reads the map to produce the new
handle, and a second call with the same name returns that same handle with
the state untouched. -/
theorem getOrCreateConnection_reuses_handle (st : MongooseConnectionManager)
    (name url : String) (connect : ConnectEnv) :
    (∀ c, mapGet st.Connections name = some c →
        st.getOrCreateConnection name url connect = (some c, st))
    ∧ (mapHas st.Connections name = false → ∀ c, connect name url = .ok c →
        st.getOrCreateConnection name url connect
          = (some c, st.addConnection name url connect)
        ∧ (st.addConnection name url connect).getOrCreateConnection name url connect
          = (some c, st.addConnection name url connect)) := by
  constructor
  · intro c hc
    have hh : mapHas st.Connections name = true := by simp [mapHas, hc]
    simp [MongooseConnectionManager.getOrCreateConnection, hh, hc]
  · intro hh c hc
    have hadd : (st.addConnection name url connect).Connections
        = mapSet st.Connections name c := by
      simp [MongooseConnectionManager.addConnection, hh, hc]
    have hget : mapGet (st.addConnection name url connect).Connections name
        = some c := by
      rw [hadd]
      exact mapGet_set_self _ _ _
    have hhas1 : mapHas (st.addConnection name url connect).Connections name
        = true := by
      simp [mapHas, hget]
    constructor
    · simp [MongooseConnectionManager.getOrCreateConnection, hh, hget]
    · simp [MongooseConnectionManager.getOrCreateConnection, hhas1, hget]

/-- C6 witness: creating "main" from an empty registry returns the freshly
stored handle together with the post-`addConnection` state. -/
theorem getOrCreateConnection_reuses_handle_witness :
    (MongooseConnectionManager.mk [] []).getOrCreateConnection "main" "u"
        (fun _ _ => .ok (Connection.mk 5 "u" false))
      = (some (Connection.mk 5 "u" false),
         (MongooseConnectionManager.mk [] []).addConnection "main" "u"
           (fun _ _ => .ok (Connection.mk 5 "u" false))) :=
  ((getOrCreateConnection_reuses_handle (MongooseConnectionManager.mk [] [])
      "main" "u" (fun _ _ => .ok (Connection.mk 5 "u" false))).2 rfl
    (Connection.mk 5 "u" false) rfl).1

/-- C7 (amended): in the TypeScript managers `closeConnection` is a warning
no-op when the name is absent, and when present the function body performs no
map mutation at all — the entry disappears exactly when the on-disconnected
observer fires during the awaited close; the legacy mjs variant additionally
deletes the entry directly after close. -/
theorem closeConnection_observer_driven (st : MongooseConnectionManager)
    (name : String) :
    (st.getConnection name = none → ∀ e,
        st.closeConnection name e
          = { st with log := st.log ++ [.warnCloseNotFound name] })
    ∧ (∀ c, st.getConnection name = some c →
        st.closeConnection name false = st
        ∧ (st.closeConnection name true).Connections
            = mapDelete st.Connections name
        ∧ (st.closeConnection name true).log = st.log) := by
  constructor
  · intro h e
    simp [MongooseConnectionManager.closeConnection, h]
  · intro c h
    refine ⟨?_, ?_, ?_⟩ <;> simp [MongooseConnectionManager.closeConnection, h]

/-- C7 witness: closing a present connection with the observer suppressed
leaves the manager state exactly as it was. -/
theorem closeConnection_observer_driven_witness :
    (MongooseConnectionManager.mk [("a", Connection.mk 1 "u" false)] []).closeConnection
        "a" false
      = MongooseConnectionManager.mk [("a", Connection.mk 1 "u" false)] [] :=
  ((closeConnection_observer_driven
      (MongooseConnectionManager.mk [("a", Connection.mk 1 "u" false)] []) "a").2
    (Connection.mk 1 "u" false) rfl).1

/-- C7 counterexample: the legacy mjs `closeConnection` deletes the entry from
the map itself — even with the on-disconnected observer suppressed the stored
connection "a" is gone afterwards, so removal is not driven solely by the
observer, falsifying the claim for that cited variant. -/
theorem mjsCloseConnection_deletes_directly :
    ((MongooseConnectionManager.mk [("a", Connection.mk 1 "u" false)] []).mjsCloseConnection
        "a" false).Connections = []
    ∧ (MongooseConnectionManager.mk
        [("a", Connection.mk 1 "u" false)] []).Connections ≠ [] := by
  constructor
  · rfl
  · decide

/-- C9: a missing configuration source is fatal — `loadConfig` raises the
config-not-found error and `init` propagates it to its caller for every
discovery and connection environment whatsoever, so no binding pass ever
runs and startup aborts entirely. -/
theorem init_missing_config_fatal :
    Myriad.loadConfig none = .error "MyriadJS config not found"
    ∧ ∀ (files : List (Except String Blueprint)) (connect : ConnectEnv),
        Myriad.init none files connect = .error "MyriadJS config not found" := by
  exact ⟨rfl, fun _ _ => rfl⟩

/-- C8: the discovery catalog is keyed by the blueprint's declared name
lower-cased; an all-successful scan yields the catalog in which every key
holds at most one entry, lookup returns the last blueprint scanned under
that key, and in particular for two files declaring the same (case-folded)
name the catalog retains exactly one entry: the second file's blueprint. -/
theorem discovery_catalog_last_wins (bs : List Blueprint) (k : String) :
    discover (bs.map Except.ok) = .ok (catalogOf bs)
    ∧ countKey (catalogOf bs) k ≤ 1
    ∧ mapGet (catalogOf bs) k = lastDeclared bs k
    ∧ (∀ b1 b2 : Blueprint, jsToLowerCase b1.className = jsToLowerCase b2.className →
        mapGet (catalogOf [b1, b2]) (jsToLowerCase b2.className) = some b2
        ∧ countKey (catalogOf [b1, b2]) (jsToLowerCase b2.className) = 1) := by
  refine ⟨discoverFrom_map_ok bs [], countKey_catalogFrom_le_one bs [] k (by simp [countKey]), ?_, ?_⟩
  · rw [catalogOf, mapGet_catalogFrom]
    cases hl : lastDeclared bs k <;> simp
  · intro b1 b2 hsame
    have hcat : catalogOf [b1, b2]
        = mapSet (mapSet [] (jsToLowerCase b1.className) b1) (jsToLowerCase b2.className) b2 := rfl
    constructor
    · rw [hcat]
      exact mapGet_set_self _ _ _
    · rw [hcat, countKey_set]
      have hh : mapHas (mapSet ([] : List (String × Blueprint))
          (jsToLowerCase b1.className) b1) (jsToLowerCase b2.className) = true := by
        rw [← hsame]
        simp [mapHas, mapGet_set_self]
      rw [hh]
      rw [← hsame]
      simp [countKey_set, mapHas, countKey]

/-- C8 witness: blueprints "User" and "USER" scanned in that order — the
catalog holds exactly one entry under "user", namely the second one. -/
theorem discovery_catalog_last_wins_witness :
    mapGet (catalogOf [Blueprint.mk "User", Blueprint.mk "USER"])
        (jsToLowerCase (Blueprint.mk "USER").className) = some (Blueprint.mk "USER")
    ∧ countKey (catalogOf [Blueprint.mk "User", Blueprint.mk "USER"])
        (jsToLowerCase (Blueprint.mk "USER").className) = 1 :=
  (discovery_catalog_last_wins [Blueprint.mk "User", Blueprint.mk "USER"] "user").2.2.2
    (Blueprint.mk "User") (Blueprint.mk "USER") (by decide)

/-- C4: a record whose effective URI is falsy (no active global URI and no
usable per-record URI) is skipped with a logged warning and registers
nothing: processing it leaves every component of the orchestrator state —
module map, props, connection manager, identity counter — untouched except
for the appended warning, and the remaining records of the batch are then
bound exactly as they would have been on their own. -/
theorem bindRecords_skips_uriless_record (catalog : List (String × Blueprint))
    (globalUri : Option String) (isLibraryMode : Bool) (connect : ConnectEnv)
    (app : Myriad) (r : RecordConfig) (rs : List RecordConfig)
    (h : jsTruthy (globalUri <|> r.uri) = false) :
    bindRecords catalog globalUri isLibraryMode connect app (r :: rs)
      = bindRecords catalog globalUri isLibraryMode connect
          { app with log := app.log ++ [.warnSkipNoUri r.modelName] } rs := by
  have hstep : bindRecord catalog globalUri isLibraryMode connect app r
      = { app with log := app.log ++ [.warnSkipNoUri r.modelName] } := by
    cases hu : globalUri <|> r.uri with
    | none => simp [bindRecord, hu]
    | some u =>
        have hu0 : u = "" := by
          rw [hu] at h
          simpa [jsTruthy] using h
        subst hu0
        simp [bindRecord, hu]
  simp only [bindRecords]
  rw [hstep]

/-- C4 witness: a batch with a URI-less record followed by a valid one — the
bad record contributes only its warning and the rest of the batch proceeds
unaffected. -/
theorem bindRecords_skips_uriless_record_witness :
    bindRecords [] none true connectFixture appFixture
        [{ name := "bad", uri := none, modelName := "Bad", modelSchema := 0,
           modelModule := "BadModule", modelModuleClass := none },
         { name := "main", uri := some "u", modelName := "User", modelSchema := 0,
           modelModule := "UserModule",
           modelModuleClass := some (Blueprint.mk "UserModule") }]
      = bindRecords [] none true connectFixture
          { appFixture with log := appFixture.log ++ [.warnSkipNoUri "Bad"] }
          [{ name := "main", uri := some "u", modelName := "User", modelSchema := 0,
             modelModule := "UserModule",
             modelModuleClass := some (Blueprint.mk "UserModule") }] :=
  bindRecords_skips_uriless_record [] none true connectFixture appFixture
    { name := "bad", uri := none, modelName := "Bad", modelSchema := 0,
      modelModule := "BadModule", modelModuleClass := none }
    [{ name := "main", uri := some "u", modelName := "User", modelSchema := 0,
       modelModule := "UserModule",
       modelModuleClass := some (Blueprint.mk "UserModule") }] rfl

/-- C10: the `SchemaModule` constructor reuses the model already registered
under the entity name on the connection instead of redefining it (which
would raise `OverwriteModelError`); construction always succeeds, and a
second construction over the resulting connection is bound to the very same
model with the connection cache unchanged. -/
theorem schemaModule_reuses_model (c : ConnectionModels) (modelName : String)
    (schemaDef : Nat) :
    (∀ m, mapGet c.models modelName = some m →
        SchemaModule.construct c modelName schemaDef = .ok (c, { model := m }))
    ∧ (∀ c1 i1, SchemaModule.construct c modelName schemaDef = .ok (c1, i1) →
        SchemaModule.construct c1 modelName schemaDef = .ok (c1, i1))
    ∧ (∃ r, SchemaModule.construct c modelName schemaDef = .ok r) := by
  refine ⟨?_, ?_, ?_⟩
  · intro m hm
    simp [SchemaModule.construct, hm]
  · intro c1 i1 h
    cases hm : mapGet c.models modelName with
    | some m =>
        simp [SchemaModule.construct, hm] at h
        obtain ⟨h1, h2⟩ := h
        subst h1
        subst h2
        simp [SchemaModule.construct, hm]
    | none =>
        have hhas : mapHas c.models modelName = false := by
          simp [mapHas, hm]
        simp [SchemaModule.construct, hm, connectionModel, hhas] at h
        obtain ⟨h1, h2⟩ := h
        subst h1
        subst h2
        simp [SchemaModule.construct, mapGet_set_self]
  · cases hm : mapGet c.models modelName with
    | some m => exact ⟨(c, { model := m }), by simp [SchemaModule.construct, hm]⟩
    | none =>
        have hhas : mapHas c.models modelName = false := by
          simp [mapHas, hm]
        exact ⟨({ models := mapSet c.models modelName c.nextModelId,
                  nextModelId := c.nextModelId + 1 }, { model := c.nextModelId }),
               by simp [SchemaModule.construct, hm, connectionModel, hhas]⟩

/-- C10 witness: a connection that already has model 7 registered under
"User" — constructing a `SchemaModule` reuses it without touching the
connection's model cache. -/
theorem schemaModule_reuses_model_witness :
    SchemaModule.construct (ConnectionModels.mk [("User", 7)] 8) "User" 0
      = .ok (ConnectionModels.mk [("User", 7)] 8, { model := 7 }) :=
  (schemaModule_reuses_model (ConnectionModels.mk [("User", 7)] 8) "User" 0).1 7 rfl

/-- C2: `reloadModule` clears the module map and re-runs the binder against
the freshly reloaded configuration while leaving the connection manager's
handles alone: whenever it completes, every connection handle stored before
under a name is still stored under that name (same handle), and no
previously registered module instance is reachable through `getModule`
anymore — every instance found afterwards is a distinct, newly constructed
object. -/
theorem reloadModule_preserves_connections_replaces_instances
    (app : Myriad) (src : Option MyriadConfig)
    (files : List (Except String Blueprint)) (connect : ConnectEnv)
    (app' : Myriad) (hwf : Myriad.idsBounded app)
    (hrel : app.reloadModule src files connect = .ok app') :
    (∀ n c, mapGet app.connectionManager.Connections n = some c →
        mapGet app'.connectionManager.Connections n = some c)
    ∧ (∀ n i, mapGet app.moduleInstances n = some i →
        ∀ n' i', app'.getModule n' = some i' → i' ≠ i) := by
  cases src with
  | none => exact absurd hrel (by simp [Myriad.reloadModule, Myriad.loadConfig])
  | some config =>
    have happ' : ∃ catalog, app'
        = bindRecords catalog (if config.useGlobalUri then config.globalUri else none)
            config.libMode connect { app with moduleInstances := [] } config.records := by
      simp only [Myriad.reloadModule, Myriad.loadConfig, moduleLoader] at hrel
      cases hlib : config.libMode with
      | true =>
          rw [hlib] at hrel
          simp at hrel
          exact ⟨[], hrel.symm⟩
      | false =>
          rw [hlib] at hrel
          simp at hrel
          cases hd : discover files with
          | ok catalog =>
              rw [hd] at hrel
              simp at hrel
              exact ⟨catalog, hrel.symm⟩
          | error m =>
              rw [hd] at hrel
              simp at hrel
    obtain ⟨catalog, happ'⟩ := happ'
    constructor
    · intro n c hc
      rw [happ']
      exact bindRecords_preserves_entry _ _ _ _ _ _ hc
    · intro n i hi n' i' hi'
      have hold : i.instanceId < app.nextInstanceId :=
        hwf (n, i) (mem_of_mapGet_some hi)
      have hfresh : Myriad.instancesAtLeast app.nextInstanceId app' := by
        rw [happ']
        exact bindRecords_instancesAtLeast _ _ _ _ _ _ _
          ⟨le_refl _, by intro p hp; simp at hp⟩
      have hnew : app.nextInstanceId ≤ i'.instanceId :=
        hfresh.2 (n', i') (mem_of_mapGet_some hi')
      intro he
      subst he
      omega

/-- C2 witness: a concrete reload — the "main" connection handle survives
identically, and the old instance (identity 0) is no longer what `getModule`
returns. -/
theorem reloadModule_preserves_connections_replaces_instances_witness :
    appFixture.reloadModule (some configFixture) [] connectFixture
      = .ok appReloadedFixture
    ∧ mapGet appReloadedFixture.connectionManager.Connections "main"
        = some (Connection.mk 7 "u" false)
    ∧ appReloadedFixture.getModule "main"
        ≠ some oldInstFixture :=
  ⟨rfl,
   (reloadModule_preserves_connections_replaces_instances appFixture
      (some configFixture) [] connectFixture appReloadedFixture
      (by intro p hp; simp [appFixture] at hp; simp [hp, oldInstFixture, appFixture])
      rfl).1 "main" (Connection.mk 7 "u" false) rfl,
   by
     intro h
     exact ((reloadModule_preserves_connections_replaces_instances appFixture
        (some configFixture) [] connectFixture appReloadedFixture
        (by intro p hp; simp [appFixture] at hp; simp [hp, oldInstFixture, appFixture])
        rfl).2 "svc" oldInstFixture rfl "main" oldInstFixture h) rfl⟩
